import Mathlib

/-!
Verification of the maelstrom `fc init` / `fc register` CLI (a Farcaster
identity provisioning tool) against its specification.

The JavaScript source is shallowly embedded: the secrets file is a record
(`Secrets`), the filesystem is an association list from paths to records
(JSON serialization is abstracted away: files hold well-formed records),
the chain is a structure of the values the RPC reads return during one run
(`Chain`), and nondeterministic inputs (generated ed25519 keys, wall-clock
timestamps, the EIP-712 signature produced by the external ethers library)
are supplied by an `Oracle`.  A command run is a pure function returning
the outcome, the final filesystem, and a trace of observable events
(secrets-file writes, submitted transactions, confirmation waits, progress
reports), in exactly the order the source performs them.  The atomic
write-temp-then-rename performed by `writeSecretsFile` / `overwriteSecretsFile`
is modelled by its net effect (the target path is updated in one step).
-/

namespace Maelstrom

/-- The secrets-file record.  `fc init` writes the first seven fields; the
optional fields are added by `fc register`.  Addresses are modelled as
natural numbers (uint160 values), private keys and timestamps as strings. -/
structure Secrets where
  kind : String
  name : String
  createdAt : String
  custodyAddress : Nat
  recoveryAddress : Nat
  custodyPrivateKey : String
  recoveryPrivateKey : String
  fid : Option String := none
  fidRegisteredAt : Option String := none
  appSignerKeyType : Option String := none
  appSignerPublicKeyBase64url : Option String := none
  appSignerPrivateKeyBase64url : Option String := none
  appSignerCreatedAt : Option String := none
  appSignerAddedAt : Option String := none
deriving DecidableEq

/-- The fields of a secrets record that `fc init` writes. -/
def initWrittenFields (p : Secrets) :
    String × String × String × Nat × Nat × String × String :=
  (p.kind, p.name, p.createdAt, p.custodyAddress, p.recoveryAddress,
   p.custodyPrivateKey, p.recoveryPrivateKey)

/-- Parsed command-line arguments (`parseArgs`). -/
structure Args where
  name : Option String := none
  secrets : Option String := none
  rpc : Option String := none
  force : Bool := false
  noSigner : Bool := false
  idGateway : Option String := none
  keyGateway : Option String := none
deriving DecidableEq

/-- The environment variables the tool reads. -/
structure Env where
  opRpcUrl : Option String := none
  fcIdGateway : Option String := none
  fcKeyGateway : Option String := none
deriving DecidableEq

/-- Errors thrown by the CLI (each corresponds to one `throw new Error`
site in the source). -/
inductive CliError where
  | missingName
  | alreadyExists (path : String)
  | secretsNotFound (path : String)
  | unsupportedKind (kind : String)
  | missingCustodyKey
  | missingRecoveryKey
  | wrongChain (chainId : Nat)
  | insufficientFunds (price : Nat)
  | registrationInconsistency
  | missingKeyGateway
  | validatorNotFound
  | invalidBase64url
  | badSignerKeyLength (len : Nat)
deriving DecidableEq

/-- Observable events of one command run, in program order: secrets-file
writes, submitted transactions, confirmation waits (`tx.wait(2)`), and the
progress lines that report a step as complete. -/
inductive Event where
  | write (path : String) (payload : Secrets)
  | submitRegister (gateway : String) (recovery : Nat) (value : Nat)
  | confirm
  | submitAddKey (gateway : String) (keyType : Nat) (key : List Nat)
      (metadataType : Nat) (metadata : List Nat)
  | reportStepOne (fid : Nat)
  | reportSkipSigner
  | reportDone (fid : Nat)
deriving DecidableEq

/-- The filesystem: an association list from paths to secrets records.
Later entries are shadowed by earlier ones. -/
abbrev FS : Type := List (String × Secrets)

def FS.lookup : FS → String → Option Secrets
  | [], _ => none
  | (p, v) :: rest, q => if q = p then some v else FS.lookup rest q

def FS.set (fs : FS) (p : String) (v : Secrets) : FS := (p, v) :: fs

instance {α β : Type} [DecidableEq α] [DecidableEq β] :
    DecidableEq (Except α β) := fun a b =>
  match a, b with
  | Except.ok x, Except.ok y =>
    if h : x = y then isTrue (by rw [h]) else isFalse (by simp [h])
  | Except.error x, Except.error y =>
    if h : x = y then isTrue (by rw [h]) else isFalse (by simp [h])
  | Except.ok _, Except.error _ => isFalse (by simp)
  | Except.error _, Except.ok _ => isFalse (by simp)

/-- Result of one command run: outcome, final filesystem, event trace. -/
structure RunResult where
  res : Except CliError Unit
  fs : FS
  trace : List Event
deriving DecidableEq

/-- JavaScript `a || d` on an optional string (`undefined` and the empty
string are falsy). -/
def jsOrS (v : Option String) (d : String) : String :=
  match v with
  | none => d
  | some s => if s = "" then d else s

/-- JavaScript truthiness of an optional string field. -/
def truthyS : Option String → Bool
  | none => false
  | some s => decide (s ≠ "")

/-- JavaScript `String.prototype.trim`, written over the character list so
that concrete instances evaluate inside the kernel. -/
def jsTrim (s : String) : String :=
  String.mk (((s.toList.dropWhile Char.isWhitespace).reverse.dropWhile
    Char.isWhitespace).reverse)

/-- Does a path string start with a slash (is it absolute)? -/
def startsWithSlash (s : String) : Bool :=
  match s.toList with
  | c :: _ => c = '/'
  | [] => false

/-- `path.resolve` relative to the working directory (absolute paths are
returned unchanged). -/
def pathResolve (cwd s : String) : String :=
  if startsWithSlash s then s else cwd ++ "/" ++ s

/-- The per-user secrets path used by `init` and the name-derived branch of
`resolveSecretsPath`. -/
def namedSecretsPath (homedir name : String) : String :=
  homedir ++ "/.config/maelstrom/farcaster/" ++ name ++ ".json"

/-- `(args.name || defaultName).trim()` followed by the emptiness check, as
performed by both `init` and `resolveSecretsPath`. -/
def resolveName (v : Option String) : Except CliError String :=
  let name := jsTrim (jsOrS v "JohnTitor")
  if name = "" then Except.error CliError.missingName else Except.ok name

/-- The name-derived branch of `resolveSecretsPath`: default, trim and check
the name, then place the file under the per-user configuration directory. -/
def resolveNamedPath (homedir : String) (v : Option String) :
    Except CliError String :=
  match resolveName v with
  | Except.error e => Except.error e
  | Except.ok name => Except.ok (namedSecretsPath homedir name)

/-- `resolveSecretsPath(args)`: `if (args.secrets)` is a JS truthiness test,
so a missing `--secrets` and an empty-string value both fall through to the
name-derived branch; a non-empty value is resolved and used as-is. -/
def resolveSecretsPath (homedir cwd : String) (args : Args) :
    Except CliError String :=
  match args.secrets with
  | some s =>
    if s = "" then resolveNamedPath homedir args.name
    else Except.ok (pathResolve cwd s)
  | none => resolveNamedPath homedir args.name

/-- `writeSecretsFile(filePath, obj, force)`: refuses to overwrite an
existing file unless forced; otherwise writes atomically. -/
def writeSecretsFile (fs : FS) (path : String) (obj : Secrets)
    (force : Bool) : Except CliError FS :=
  if (FS.lookup fs path).isSome ∧ force = false then
    Except.error (CliError.alreadyExists path)
  else
    Except.ok (FS.set fs path obj)

/-- `overwriteSecretsFile(filePath, obj)`: unconditional atomic rewrite. -/
def overwriteSecretsFile (fs : FS) (path : String) (obj : Secrets) : FS :=
  FS.set fs path obj

/-- `assertFarcasterKeys(payload)`: kind discriminator and the two private
keys must be present (a missing or empty string field is falsy). -/
def assertFarcasterKeys (p : Secrets) : Except CliError Unit :=
  if p.kind ≠ "farcaster-keys" then Except.error (CliError.unsupportedKind p.kind)
  else if p.custodyPrivateKey = "" then Except.error CliError.missingCustodyKey
  else if p.recoveryPrivateKey = "" then Except.error CliError.missingRecoveryKey
  else Except.ok ()

/-- The `hasSigner` test in `register`: all three signer fields truthy. -/
def hasSignerFields (p : Secrets) : Bool :=
  truthyS p.appSignerKeyType && truthyS p.appSignerPublicKeyBase64url &&
    truthyS p.appSignerPrivateKeyBase64url

/-- `getOptimismRpcUrl(args)`: flag, then environment, then public default. -/
def getOptimismRpcUrl (env : Env) (args : Args) : String :=
  let fromArgs := jsTrim (jsOrS args.rpc "")
  if fromArgs ≠ "" then fromArgs
  else
    let fromEnv := jsTrim (jsOrS env.opRpcUrl "")
    if fromEnv ≠ "" then fromEnv
    else "https://mainnet.optimism.io"

def DEFAULT_ID_GATEWAY : String := "0x00000000fc25870c6ed6b6c7e41fb078b7656f69"

def DEFAULT_KEY_GATEWAY : String := "0x00000000fc56947c7e7183f8ca4b62398caadf0b"

def zeroAddress : String := "0x0000000000000000000000000000000000000000"

/-- `(args.idGateway || process.env.FC_ID_GATEWAY || DEFAULT_ID_GATEWAY).trim()`. -/
def resolvedIdGateway (env : Env) (args : Args) : String :=
  jsTrim (jsOrS args.idGateway (jsOrS env.fcIdGateway DEFAULT_ID_GATEWAY))

/-- `(args.keyGateway || process.env.FC_KEY_GATEWAY || DEFAULT_KEY_GATEWAY).trim()`. -/
def resolvedKeyGateway (env : Env) (args : Args) : String :=
  jsTrim (jsOrS args.keyGateway (jsOrS env.fcKeyGateway DEFAULT_KEY_GATEWAY))

/-- Base64 value of one alphabet character. -/
def b64Val (c : Char) : Option Nat :=
  if 65 ≤ c.toNat ∧ c.toNat ≤ 90 then some (c.toNat - 65)
  else if 97 ≤ c.toNat ∧ c.toNat ≤ 122 then some (c.toNat - 71)
  else if 48 ≤ c.toNat ∧ c.toNat ≤ 57 then some (c.toNat + 4)
  else if c = '+' then some 62
  else if c = '/' then some 63
  else none

/-- Decode a padded base64 character list, four characters at a time. -/
def decodeB64 : List Char → Except CliError (List Nat)
  | [] => Except.ok []
  | c1 :: c2 :: c3 :: c4 :: rest =>
    match b64Val c1, b64Val c2 with
    | some v1, some v2 =>
      let b1 := v1 * 4 + v2 / 16
      if c3 = '=' then Except.ok [b1]
      else
        match b64Val c3 with
        | some v3 =>
          let b2 := (v2 % 16) * 16 + v3 / 4
          if c4 = '=' then Except.ok [b1, b2]
          else
            match b64Val c4 with
            | some v4 =>
              match decodeB64 rest with
              | Except.error e => Except.error e
              | Except.ok r => Except.ok ([b1, b2, (v3 % 4) * 64 + v4] ++ r)
            | none => Except.error CliError.invalidBase64url
        | none => Except.error CliError.invalidBase64url
    | _, _ => Except.error CliError.invalidBase64url
  | _ => Except.error CliError.invalidBase64url

/-- `base64urlToBytes(s)`: reject a missing or empty string, translate the
base64url alphabet to base64, pad to a multiple of four, decode. -/
def base64urlToBytes (s : String) : Except CliError (List Nat) :=
  if s = "" then Except.error CliError.invalidBase64url
  else
    let b64 := s.toList.map (fun c => if c = '-' then '+' else if c = '_' then '/' else c)
    decodeB64 (b64 ++ List.replicate ((4 - b64.length % 4) % 4) '=')

/-- Big-endian byte expansion of a natural number into `k` bytes. -/
def natToBytesBE : Nat → Nat → List Nat
  | 0, _ => []
  | k + 1, n => natToBytesBE k (n / 256) ++ [n % 256]

/-- Big-endian byte-list to natural number. -/
def bytesToNatBE (bs : List Nat) : Nat :=
  bs.foldl (fun acc b => acc * 256 + b) 0

/-- One 32-byte ABI word. -/
def abiWord (n : Nat) : List Nat := natToBytesBE 32 n

/-- Right-pad a byte string with zeros to a multiple of 32 bytes. -/
def padRight32 (bs : List Nat) : List Nat :=
  bs ++ List.replicate ((32 - bs.length % 32) % 32) 0

/-- ABI encoding of the four values `(uint256, address, bytes, uint256)` as
independent top-level values: four head words (the `bytes` head is the
offset 128 to its tail) followed by the length-prefixed padded bytes. -/
def abiEncodeFourValues (fid addr : Nat) (sig : List Nat) (deadline : Nat) :
    List Nat :=
  abiWord fid ++ abiWord addr ++ abiWord 128 ++ abiWord deadline ++
    abiWord sig.length ++ padRight32 sig

/-- ABI encoding of the single nested tuple
`tuple(uint256 requestFid, address requestSigner, bytes signature, uint256 deadline)`
as produced by `AbiCoder.defaultAbiCoder().encode` in the source: the tuple
is dynamic, so the top level is one offset word (32) followed by the tuple
body, whose component encoding coincides with the four-value layout. -/
def abiEncodeSignedKeyRequestMetadata (fid addr : Nat) (sig : List Nat)
    (deadline : Nat) : List Nat :=
  abiWord 32 ++ abiEncodeFourValues fid addr sig deadline

/-- Strip trailing zero characters. -/
def stripTrailingZeros (s : String) : String :=
  String.mk (s.toList.reverse.dropWhile (fun c => c = '0')).reverse

/-- Left-pad a decimal string with zeros to 18 digits. -/
def padLeft18 (s : String) : String :=
  String.mk (List.replicate (18 - s.length) '0') ++ s

/-- ethers `formatEther`: integer part, a dot, and the 18-digit fraction
with trailing zeros removed but at least one digit kept. -/
def formatEther (wei : Nat) : String :=
  let whole := wei / 1000000000000000000
  let frac := wei % 1000000000000000000
  let t := stripTrailingZeros (padLeft18 (toString frac))
  toString whole ++ "." ++ (if t = "" then "0" else t)

/-- The user-visible message of each thrown error, as written in the source
(template interpolations rendered by concatenation). -/
def errorMessage : CliError → String
  | CliError.missingName => "Missing --name"
  | CliError.alreadyExists path =>
      "Refusing to overwrite existing secrets file: " ++ path ++ " (use --force)"
  | CliError.secretsNotFound path =>
      "Secrets file not found: " ++ path ++ " (run: maelstrom fc init --name <agentName>)"
  | CliError.unsupportedKind kind => "Unsupported secrets kind: " ++ kind
  | CliError.missingCustodyKey => "Secrets file missing custodyPrivateKey"
  | CliError.missingRecoveryKey => "Secrets file missing recoveryPrivateKey"
  | CliError.wrongChain _ =>
      "Connected to wrong chain (expected Optimism Mainnet chainId 10). " ++
        "Set OP_RPC_URL (or --rpc) to an Optimism Mainnet RPC."
  | CliError.insufficientFunds price =>
      "Insufficient ETH for registration. Need at least " ++ formatEther price ++
        " ETH on Optimism to rent 1 storage unit."
  | CliError.registrationInconsistency =>
      "FID registration tx mined but idOf(custody) is still 0"
  | CliError.missingKeyGateway =>
      "Missing KeyGateway address. Provide --key-gateway <addr> or set FC_KEY_GATEWAY in env."
  | CliError.validatorNotFound =>
      "Could not resolve SignedKeyRequestValidator address from KeyRegistry.validators(1,1)"
  | CliError.invalidBase64url => "Invalid base64url"
  | CliError.badSignerKeyLength len =>
      "App signer public key must be 32 bytes (got " ++ toString len ++ ")"

/-- The values returned by the chain reads performed during one `register`
run, in the order the source issues them. -/
structure Chain where
  chainId : Nat
  balance : Nat
  idRegistryAddress : String
  idOf0 : Nat
  price : Nat
  idOfAfterRegister : Nat
  keyRegistryAddress : String
  validatorAddress : String
deriving DecidableEq

/-- The ed25519 signer record produced by `generateEd25519Signer` (the
keypair itself comes from the external crypto library). -/
structure SignerRecord where
  keyType : String
  publicKeyBase64url : String
  privateKeyBase64url : String
  createdAt : String
deriving DecidableEq

/-- Does `register` generate a fresh app signer (`!args.noSigner && !hasSigner`)? -/
def genSignerFlag (args : Args) (p : Secrets) : Bool :=
  !args.noSigner && !hasSignerFields p

/-- The in-memory payload after the signer-generation block of `register`:
when a signer is generated, its four fields are set; otherwise unchanged. -/
def signerAugmented (args : Args) (s : SignerRecord) (p : Secrets) : Secrets :=
  if genSignerFlag args p then
    { p with
      appSignerKeyType := some s.keyType,
      appSignerPublicKeyBase64url := some s.publicKeyBase64url,
      appSignerPrivateKeyBase64url := some s.privateKeyBase64url,
      appSignerCreatedAt := some s.createdAt }
  else p

/-- Nondeterministic inputs of one `register` run: the generated signer,
the wall-clock timestamps taken at each persist, the Unix time used for the
signing deadline, and the EIP-712 signature bytes produced by
`custody.signTypedData` (external crypto). -/
structure Oracle where
  signer : SignerRecord
  fidRegisteredAtIso : String
  appSignerAddedAtIso : String
  nowEpoch : Nat
  signature : List Nat
deriving DecidableEq

/-- Nondeterministic inputs of one `init` run: the creation timestamp and
the two randomly generated wallets. -/
structure InitOracle where
  createdAt : String
  custodyAddress : Nat
  recoveryAddress : Nat
  custodyPrivateKey : String
  recoveryPrivateKey : String
deriving DecidableEq

/-- The `fc init` command: resolve the name, build the payload, create the
secrets file (refusing to overwrite without `--force`). -/
def initRun (homedir : String) (o : InitOracle) (args : Args) (fs0 : FS) :
    RunResult :=
  match resolveName args.name with
  | Except.error e => ⟨Except.error e, fs0, []⟩
  | Except.ok name =>
    let secretsPath := namedSecretsPath homedir name
    let payload : Secrets :=
      { kind := "farcaster-keys", name := name, createdAt := o.createdAt,
        custodyAddress := o.custodyAddress, recoveryAddress := o.recoveryAddress,
        custodyPrivateKey := o.custodyPrivateKey,
        recoveryPrivateKey := o.recoveryPrivateKey }
    match writeSecretsFile fs0 secretsPath payload args.force with
    | Except.error e => ⟨Except.error e, fs0, []⟩
    | Except.ok fs1 => ⟨Except.ok (), fs1, [Event.write secretsPath payload]⟩

/-- Step 2 of `register` (signer authorization via the KeyGateway), entered
with the identifier `fid` established and the current in-memory payload. -/
def stepTwo (env : Env) (addressOf : String → Nat) (args : Args)
    (chain : Chain) (o : Oracle) (secretsPath custodyPrivateKey : String)
    (fid : Nat) (payload : Secrets) (fs : FS) (tr : List Event) : RunResult :=
  if args.noSigner then ⟨Except.ok (), fs, tr ++ [Event.reportSkipSigner]⟩
  else
    if resolvedKeyGateway env args = "" then
      ⟨Except.error CliError.missingKeyGateway, fs, tr⟩
    else if chain.validatorAddress = "" ∨ chain.validatorAddress = zeroAddress then
      ⟨Except.error CliError.validatorNotFound, fs, tr⟩
    else
      match base64urlToBytes ((payload.appSignerPublicKeyBase64url).getD "") with
      | Except.error e => ⟨Except.error e, fs, tr⟩
      | Except.ok pub =>
        if pub.length ≠ 32 then
          ⟨Except.error (CliError.badSignerKeyLength pub.length), fs, tr⟩
        else
          let deadline := o.nowEpoch + 3600
          let metadata :=
            abiEncodeSignedKeyRequestMetadata fid (addressOf custodyPrivateKey)
              o.signature deadline
          let payload3 := { payload with appSignerAddedAt := some o.appSignerAddedAtIso }
          ⟨Except.ok (), FS.set fs secretsPath payload3,
            tr ++ [Event.submitAddKey (resolvedKeyGateway env args) 1 pub 1 metadata,
                   Event.confirm, Event.write secretsPath payload3,
                   Event.reportDone fid]⟩

/-- Body of `fc register` after the secrets file was located and validated:
generate and persist a missing signer, check the chain id, look up the
identifier (registering it if absent, guarded by the price/balance check),
then add the signer key via `stepTwo`. -/
def registerBody (env : Env) (addressOf : String → Nat) (args : Args)
    (chain : Chain) (o : Oracle) (secretsPath : String) (payload0 : Secrets)
    (fs0 : FS) : RunResult :=
  let genSigner := genSignerFlag args payload0
  let payload1 := signerAugmented args o.signer payload0
  let fs1 := if genSigner then FS.set fs0 secretsPath payload1 else fs0
  let tr1 : List Event :=
    if genSigner then [Event.write secretsPath payload1] else []
  if chain.chainId ≠ 10 then
    ⟨Except.error (CliError.wrongChain chain.chainId), fs1, tr1⟩
  else if chain.idOf0 = 0 then
    if chain.balance < chain.price then
      ⟨Except.error (CliError.insufficientFunds chain.price), fs1, tr1⟩
    else
      let tr2 := tr1 ++
        [Event.submitRegister (resolvedIdGateway env args)
           (addressOf payload0.recoveryPrivateKey) chain.price,
         Event.confirm]
      if chain.idOfAfterRegister = 0 then
        ⟨Except.error CliError.registrationInconsistency, fs1, tr2⟩
      else
        let payload2 :=
          { payload1 with
            fid := some (toString chain.idOfAfterRegister),
            fidRegisteredAt := some o.fidRegisteredAtIso }
        stepTwo env addressOf args chain o secretsPath
          payload0.custodyPrivateKey chain.idOfAfterRegister payload2
          (FS.set fs1 secretsPath payload2)
          (tr2 ++ [Event.write secretsPath payload2,
                   Event.reportStepOne chain.idOfAfterRegister])
  else
    stepTwo env addressOf args chain o secretsPath
      payload0.custodyPrivateKey chain.idOf0 payload1 fs1
      (tr1 ++ [Event.reportStepOne chain.idOf0])

/-- The `fc register` command, embedded step by step from the source: load
and validate the secrets file, then run `registerBody`. -/
def registerRun (homedir cwd : String) (env : Env) (addressOf : String → Nat)
    (args : Args) (fs0 : FS) (chain : Chain) (o : Oracle) : RunResult :=
  match resolveSecretsPath homedir cwd args with
  | Except.error e => ⟨Except.error e, fs0, []⟩
  | Except.ok secretsPath =>
    match FS.lookup fs0 secretsPath with
    | none => ⟨Except.error (CliError.secretsNotFound secretsPath), fs0, []⟩
    | some payload0 =>
      match assertFarcasterKeys payload0 with
      | Except.error e => ⟨Except.error e, fs0, []⟩
      | Except.ok _ =>
        registerBody env addressOf args chain o secretsPath payload0 fs0

/-- Is an event a register-identifier transaction submission? -/
def isRegisterTx : Event → Bool
  | Event.submitRegister _ _ _ => true
  | _ => false

/-- Is an event an add-key transaction submission? -/
def isAddKeyTx : Event → Bool
  | Event.submitAddKey _ _ _ _ _ => true
  | _ => false

/-- Number of register transactions in a trace. -/
def registerTxCount (tr : List Event) : Nat := (tr.filter isRegisterTx).length

/-- Number of submitted transactions of any kind in a trace. -/
def txCount (tr : List Event) : Nat :=
  (tr.filter (fun e => isRegisterTx e || isAddKeyTx e)).length

/-- Is an event a secrets-file write? -/
def isWriteEvent : Event → Bool
  | Event.write _ _ => true
  | _ => false

/-- Persistence-before-success checker over one run trace: after every
confirmed register transaction, either the run fails with no step-one
success report at all (the trace ends), or the very next events are the
secrets-file write that persists the new identifier (the reported fid and a
registration timestamp) and then the step-one success report; after every
confirmed add-key transaction the very next events are the secrets-file
write that persists the signer-addition timestamp and then the final Done
report.  All other events are skipped. -/
def persistBeforeSuccess : List Event → Bool
  | Event.submitRegister _ _ _ :: Event.confirm :: [] => true
  | Event.submitRegister _ _ _ :: Event.confirm :: Event.write _ p ::
      Event.reportStepOne f :: rest =>
    (p.fid == some (toString f)) && p.fidRegisteredAt.isSome &&
      persistBeforeSuccess rest
  | Event.submitRegister _ _ _ :: Event.confirm :: _ => false
  | Event.submitAddKey _ _ _ _ _ :: Event.confirm :: Event.write _ p ::
      Event.reportDone _ :: rest =>
    p.appSignerAddedAt.isSome && persistBeforeSuccess rest
  | Event.submitAddKey _ _ _ _ _ :: Event.confirm :: _ => false
  | [] => true
  | _ :: rest => persistBeforeSuccess rest

/-- The payloads of the secrets-file writes in a trace, in order. -/
def writtenPayloads (tr : List Event) : List Secrets :=
  tr.filterMap (fun e => match e with | Event.write _ p => some p | _ => none)

/-- Read the 32-byte ABI word at byte offset `off`. -/
def readWord (bs : List Nat) (off : Nat) : Nat :=
  bytesToNatBE ((bs.drop off).take 32)

/-- Following the spec of the on-chain verifier: the validator decodes the
metadata as one nested `SignedKeyRequestMetadata` tuple — a head offset word
to the dynamic tuple, then the tuple body `(requestFid, requestSigner,
signature offset, deadline)` with the length-prefixed signature bytes in the
tuple's tail.  Used to state that the encoding the CLI produces matches the
layout the validator decodes. -/
def validatorDecodeMetadata (bs : List Nat) :
    Option (Nat × Nat × List Nat × Nat) :=
  let tupOff := readWord bs 0
  let fid := readWord bs tupOff
  let addr := readWord bs (tupOff + 32)
  let sigOff := readWord bs (tupOff + 64)
  let deadline := readWord bs (tupOff + 96)
  let len := readWord bs (tupOff + sigOff)
  some (fid, addr, (bs.drop (tupOff + sigOff + 32)).take len, deadline)

/- Concrete inputs used by witnesses and counterexamples: the identity
"alice" of the spec's scenarios, a 43-character base64url signer public key
(which decodes to 32 zero bytes), and small chain states. -/

def alicePath : String := "/home/u/.config/maelstrom/farcaster/alice.json"

/-- The secrets record `init` writes for "alice" (no optional fields). -/
def freshSecrets : Secrets :=
  { kind := "farcaster-keys", name := "alice", createdAt := "t0",
    custodyAddress := 11, recoveryAddress := 22, custodyPrivateKey := "ck",
    recoveryPrivateKey := "rk" }

def samplePubKey : String := "AAAAAAAAAAAAAAAAAAAAAAAAAAAAAAAAAAAAAAAAAAA"

def sampleSigner : SignerRecord :=
  { keyType := "ed25519", publicKeyBase64url := samplePubKey,
    privateKeyBase64url := "priv", createdAt := "t1" }

def sampleOracle : Oracle :=
  { signer := sampleSigner, fidRegisteredAtIso := "t2",
    appSignerAddedAtIso := "t3", nowEpoch := 1000, signature := [1, 2, 3] }

def zeroBalanceChain : Chain :=
  { chainId := 10, balance := 0, idRegistryAddress := "ir", idOf0 := 0,
    price := 5, idOfAfterRegister := 7, keyRegistryAddress := "kr",
    validatorAddress := "0xv" }

def fundedChain : Chain := { zeroBalanceChain with balance := 10 }

def wrongChainNet : Chain := { zeroBalanceChain with chainId := 1 }

/-- A secrets record that already holds a signer and a registered fid. -/
def storedSignerSecrets : Secrets :=
  { freshSecrets with
    fid := some "7", fidRegisteredAt := some "t2",
    appSignerKeyType := some "ed25519",
    appSignerPublicKeyBase64url := some samplePubKey,
    appSignerPrivateKeyBase64url := some "priv",
    appSignerCreatedAt := some "t1" }

def registeredChain : Chain := { fundedChain with idOf0 := 7 }

def aliceArgs : Args := { name := some "alice" }

def aliceFS : FS := [(alicePath, freshSecrets)]

def sampleAddressOf : String → Nat := fun _ => 99

def sampleInitOracle : InitOracle :=
  { createdAt := "t0", custodyAddress := 11, recoveryAddress := 22,
    custodyPrivateKey := "ck", recoveryPrivateKey := "rk" }

/-- Arguments carrying an explicit secrets path and a whitespace name. -/
def secretsArgs : Args := { name := some " ", secrets := some "x.json" }

/-- Arguments carrying only a whitespace name. -/
def wsArgs : Args := { name := some " " }

def registeredFS : FS := [(alicePath, storedSignerSecrets)]

/-! Helper lemmas. -/

theorem lookup_set_self (fs : FS) (p : String) (v : Secrets) :
    FS.lookup (FS.set fs p v) p = some v := by
  simp [FS.set, FS.lookup]

theorem lookup_set_other (fs : FS) (p q : String) (v : Secrets) (h : q ≠ p) :
    FS.lookup (FS.set fs p v) q = FS.lookup fs q := by
  simp [FS.set, FS.lookup, h]

theorem natToBytesBE_length (k n : Nat) : (natToBytesBE k n).length = k := by
  induction k generalizing n with
  | zero => rfl
  | succ k ih => simp [natToBytesBE, ih]

theorem bytesToNatBE_snoc (xs : List Nat) (b : Nat) :
    bytesToNatBE (xs ++ [b]) = bytesToNatBE xs * 256 + b := by
  simp [bytesToNatBE, List.foldl_append]

theorem bytesToNatBE_natToBytesBE (k n : Nat) :
    bytesToNatBE (natToBytesBE k n) = n % 256 ^ k := by
  induction k generalizing n with
  | zero => simp [natToBytesBE, bytesToNatBE, Nat.mod_one]
  | succ k ih =>
    rw [natToBytesBE, bytesToNatBE_snoc, ih, pow_succ, mul_comm (256 ^ k) 256,
      Nat.mod_mul]
    ring

theorem abiWord_length (n : Nat) : (abiWord n).length = 32 :=
  natToBytesBE_length 32 n

theorem bytesToNatBE_abiWord {n : Nat} (h : n < 256 ^ 32) :
    bytesToNatBE (abiWord n) = n := by
  rw [abiWord, bytesToNatBE_natToBytesBE]
  exact Nat.mod_eq_of_lt h

theorem take_exact {w rest : List Nat} {n : Nat} (h : w.length = n) :
    (w ++ rest).take n = w := by
  induction w generalizing n with
  | nil => subst h; simp
  | cons a w ih =>
    subst h
    simp only [List.cons_append, List.length_cons, List.take_succ_cons]
    rw [ih rfl]

theorem drop_exact {w rest : List Nat} {n : Nat} (h : w.length = n) :
    (w ++ rest).drop n = rest := by
  induction w generalizing n with
  | nil => subst h; simp
  | cons a w ih =>
    subst h
    simp only [List.cons_append, List.length_cons, List.drop_succ_cons]
    exact ih rfl

theorem drop_add_exact {w rest : List Nat} {n k : Nat} (h : w.length = n) :
    (w ++ rest).drop (n + k) = rest.drop k := by
  induction w generalizing n with
  | nil => subst h; simp
  | cons a w ih =>
    subst h
    simp only [List.cons_append, List.length_cons]
    rw [Nat.succ_add]
    simp only [List.drop_succ_cons]
    exact ih rfl

theorem lt_pow32 {n : Nat} (h : n < 256) : n < 256 ^ 32 :=
  lt_of_lt_of_le h (Nat.le_self_pow (by norm_num) 256)

/-- Decoding the nested-tuple metadata encoding recovers the four fields. -/
theorem validatorDecode_encode (fid addr dl : Nat) (sig : List Nat)
    (h1 : fid < 256 ^ 32) (h2 : addr < 256 ^ 32) (h3 : dl < 256 ^ 32)
    (h4 : sig.length < 256 ^ 32) :
    validatorDecodeMetadata (abiEncodeSignedKeyRequestMetadata fid addr sig dl)
      = some (fid, addr, sig, dl) := by
  have h32 : (32 : Nat) < 256 ^ 32 := lt_pow32 (by norm_num)
  have h128 : (128 : Nat) < 256 ^ 32 := lt_pow32 (by norm_num)
  unfold validatorDecodeMetadata abiEncodeSignedKeyRequestMetadata
    abiEncodeFourValues padRight32
  simp only [List.append_assoc]
  set rest5 : List Nat :=
    sig ++ List.replicate ((32 - sig.length % 32) % 32) 0 with hrest5
  set rest4 : List Nat := abiWord sig.length ++ rest5 with hrest4
  set rest3 : List Nat := abiWord dl ++ rest4 with hrest3
  set rest2 : List Nat := abiWord 128 ++ rest3 with hrest2
  set rest1 : List Nat := abiWord addr ++ rest2 with hrest1
  set rest0 : List Nat := abiWord fid ++ rest1 with hrest0
  set enc : List Nat := abiWord 32 ++ rest0 with henc
  have d1 : rest0.drop 32 = rest1 := by
    rw [hrest0]; exact drop_exact (abiWord_length fid)
  have d2 : rest1.drop 32 = rest2 := by
    rw [hrest1]; exact drop_exact (abiWord_length addr)
  have d3 : rest2.drop 32 = rest3 := by
    rw [hrest2]; exact drop_exact (abiWord_length 128)
  have d4 : rest3.drop 32 = rest4 := by
    rw [hrest3]; exact drop_exact (abiWord_length dl)
  have d5 : rest4.drop 32 = rest5 := by
    rw [hrest4]; exact drop_exact (abiWord_length sig.length)
  have d32 : enc.drop 32 = rest0 := by
    rw [henc]; exact drop_exact (abiWord_length 32)
  have e64 : enc.drop (32 + 32) = rest1 := by
    rw [henc, drop_add_exact (abiWord_length 32), d1]
  have e96 : enc.drop (32 + 64) = rest2 := by
    rw [henc, drop_add_exact (abiWord_length 32),
      show (64 : Nat) = 32 + 32 from rfl, hrest0,
      drop_add_exact (abiWord_length fid), d2]
  have e128 : enc.drop (32 + 96) = rest3 := by
    rw [henc, drop_add_exact (abiWord_length 32),
      show (96 : Nat) = 32 + 64 from rfl, hrest0,
      drop_add_exact (abiWord_length fid),
      show (64 : Nat) = 32 + 32 from rfl, hrest1,
      drop_add_exact (abiWord_length addr), d3]
  have e160 : enc.drop (32 + 128) = rest4 := by
    rw [henc, drop_add_exact (abiWord_length 32),
      show (128 : Nat) = 32 + 96 from rfl, hrest0,
      drop_add_exact (abiWord_length fid),
      show (96 : Nat) = 32 + 64 from rfl, hrest1,
      drop_add_exact (abiWord_length addr),
      show (64 : Nat) = 32 + 32 from rfl, hrest2,
      drop_add_exact (abiWord_length 128), d4]
  have e192 : enc.drop (32 + 128 + 32) = rest5 := by
    rw [show (32 + 128 + 32 : Nat) = 32 + 160 from rfl,
      henc, drop_add_exact (abiWord_length 32),
      show (160 : Nat) = 32 + 128 from rfl, hrest0,
      drop_add_exact (abiWord_length fid),
      show (128 : Nat) = 32 + 96 from rfl, hrest1,
      drop_add_exact (abiWord_length addr),
      show (96 : Nat) = 32 + 64 from rfl, hrest2,
      drop_add_exact (abiWord_length 128),
      show (64 : Nat) = 32 + 32 from rfl, hrest3,
      drop_add_exact (abiWord_length dl), d5]
  have r0 : readWord enc 0 = 32 := by
    rw [readWord, List.drop_zero, henc, take_exact (abiWord_length 32),
      bytesToNatBE_abiWord h32]
  have rfid : readWord enc 32 = fid := by
    rw [readWord, d32, hrest0, take_exact (abiWord_length fid),
      bytesToNatBE_abiWord h1]
  have raddr : readWord enc (32 + 32) = addr := by
    rw [readWord, e64, hrest1, take_exact (abiWord_length addr),
      bytesToNatBE_abiWord h2]
  have roff : readWord enc (32 + 64) = 128 := by
    rw [readWord, e96, hrest2, take_exact (abiWord_length 128),
      bytesToNatBE_abiWord h128]
  have rdl : readWord enc (32 + 96) = dl := by
    rw [readWord, e128, hrest3, take_exact (abiWord_length dl),
      bytesToNatBE_abiWord h3]
  have rlen : readWord enc (32 + 128) = sig.length := by
    rw [readWord, e160, hrest4, take_exact (abiWord_length sig.length),
      bytesToNatBE_abiWord h4]
  have rsig : (enc.drop (32 + 128 + 32)).take sig.length = sig := by
    rw [e192, hrest5, take_exact rfl]
  rw [r0, rfid, raddr, roff, rdl, rlen, rsig]

/-- The nested-tuple encoding is never the loose four-value encoding: it
carries one extra head word, so the lengths differ. -/
theorem encode_tuple_ne_four_values (fid addr : Nat) (sig : List Nat)
    (dl : Nat) :
    abiEncodeSignedKeyRequestMetadata fid addr sig dl ≠
      abiEncodeFourValues fid addr sig dl := by
  intro h
  have hl := congrArg List.length h
  rw [abiEncodeSignedKeyRequestMetadata, List.length_append,
    abiWord_length] at hl
  omega

theorem assertFarcasterKeys_ok {p : Secrets} (hkind : p.kind = "farcaster-keys")
    (hck : p.custodyPrivateKey ≠ "") (hrk : p.recoveryPrivateKey ≠ "") :
    assertFarcasterKeys p = Except.ok () := by
  simp [assertFarcasterKeys, hkind, hck, hrk]

theorem registerRun_eq_body {homedir cwd : String} {env : Env}
    {addressOf : String → Nat} {args : Args} {fs0 : FS} {chain : Chain}
    {o : Oracle} {sp : String} {p0 : Secrets}
    (hres : resolveSecretsPath homedir cwd args = Except.ok sp)
    (hlk : FS.lookup fs0 sp = some p0)
    (hass : assertFarcasterKeys p0 = Except.ok ()) :
    registerRun homedir cwd env addressOf args fs0 chain o =
      registerBody env addressOf args chain o sp p0 fs0 := by
  unfold registerRun
  rw [hres]
  dsimp only
  rw [hlk]
  dsimp only
  rw [hass]

theorem signerAugmented_initFields (args : Args) (s : SignerRecord)
    (p : Secrets) :
    initWrittenFields (signerAugmented args s p) = initWrittenFields p := by
  unfold signerAugmented
  split <;> rfl

theorem signerAugmented_fid (args : Args) (s : SignerRecord) (p : Secrets) :
    (signerAugmented args s p).fid = p.fid := by
  unfold signerAugmented
  split <;> rfl

theorem signerAugmented_fidRegisteredAt (args : Args) (s : SignerRecord)
    (p : Secrets) :
    (signerAugmented args s p).fidRegisteredAt = p.fidRegisteredAt := by
  unfold signerAugmented
  split <;> rfl

theorem signerAugmented_addedAt (args : Args) (s : SignerRecord) (p : Secrets) :
    (signerAugmented args s p).appSignerAddedAt = p.appSignerAddedAt := by
  unfold signerAugmented
  split <;> rfl

/-- Every `stepTwo` outcome extends the incoming trace with events that are
never register transactions; the only possible write is the
`appSignerAddedAt` persist to the secrets path, and the only possible
add-key submission carries the nested-tuple metadata. -/
theorem stepTwo_trace_shape (env : Env) (aOf : String → Nat) (args : Args)
    (chain : Chain) (o : Oracle) (sp ck : String) (fid : Nat)
    (payload : Secrets) (fs : FS) (tr : List Event) :
    ∃ extra : List Event,
      (stepTwo env aOf args chain o sp ck fid payload fs tr).trace =
        tr ++ extra ∧
      extra.filter isRegisterTx = [] ∧
      (∀ q p, Event.write q p ∈ extra → q = sp ∧
        p = { payload with appSignerAddedAt := some o.appSignerAddedAtIso }) ∧
      (∀ g kt key mt md, Event.submitAddKey g kt key mt md ∈ extra →
        md = abiEncodeSignedKeyRequestMetadata fid (aOf ck) o.signature
          (o.nowEpoch + 3600)) := by
  unfold stepTwo
  split_ifs with h1 h2 h3
  · exact ⟨[Event.reportSkipSigner], rfl, rfl, by intro q p hm; simp at hm,
      by intro g kt key mt md hm; simp at hm⟩
  · exact ⟨[], by simp, rfl, by intro q p hm; simp at hm,
      by intro g kt key mt md hm; simp at hm⟩
  · exact ⟨[], by simp, rfl, by intro q p hm; simp at hm,
      by intro g kt key mt md hm; simp at hm⟩
  · cases hb : base64urlToBytes ((payload.appSignerPublicKeyBase64url).getD "") with
    | error e =>
      dsimp only
      exact ⟨[], by simp, rfl, by intro q p hm; simp at hm,
        by intro g kt key mt md hm; simp at hm⟩
    | ok pub =>
      dsimp only
      split_ifs with h4
      · exact ⟨[], by simp, rfl, by intro q p hm; simp at hm,
          by intro g kt key mt md hm; simp at hm⟩
      · refine ⟨_, rfl, by simp [isRegisterTx], ?_, ?_⟩
        · intro q p hm
          simp only [List.mem_cons, List.not_mem_nil, or_false] at hm
          rcases hm with h | h | h | h <;> simp_all
        · intro g kt key mt md hm
          simp only [List.mem_cons, List.not_mem_nil, or_false] at hm
          rcases hm with h | h | h | h <;> simp_all

/-- `stepTwo` either leaves the filesystem unchanged or performs exactly the
`appSignerAddedAt` persist. -/
theorem stepTwo_fs_shape (env : Env) (aOf : String → Nat) (args : Args)
    (chain : Chain) (o : Oracle) (sp ck : String) (fid : Nat)
    (payload : Secrets) (fs : FS) (tr : List Event) :
    (stepTwo env aOf args chain o sp ck fid payload fs tr).fs = fs ∨
      (stepTwo env aOf args chain o sp ck fid payload fs tr).fs =
        FS.set fs sp
          { payload with appSignerAddedAt := some o.appSignerAddedAtIso } := by
  unfold stepTwo
  split_ifs with h1 h2 h3
  · exact Or.inl rfl
  · exact Or.inl rfl
  · exact Or.inl rfl
  · cases hb : base64urlToBytes ((payload.appSignerPublicKeyBase64url).getD "") with
    | error e => exact Or.inl rfl
    | ok pub =>
      dsimp only
      split_ifs with h4
      · exact Or.inl rfl
      · exact Or.inr rfl

/-- The success path of `stepTwo`, as one equation. -/
theorem stepTwo_success {env : Env} {aOf : String → Nat} {args : Args}
    {chain : Chain} {o : Oracle} {sp ck : String} {fid : Nat}
    {payload : Secrets} {fs : FS} {tr : List Event} {pub : List Nat}
    (hns : args.noSigner = false)
    (hkg : resolvedKeyGateway env args ≠ "")
    (hv : ¬(chain.validatorAddress = "" ∨ chain.validatorAddress = zeroAddress))
    (hdec : base64urlToBytes ((payload.appSignerPublicKeyBase64url).getD "")
      = Except.ok pub)
    (hlen : pub.length = 32) :
    stepTwo env aOf args chain o sp ck fid payload fs tr =
      ⟨Except.ok (),
       FS.set fs sp
         { payload with appSignerAddedAt := some o.appSignerAddedAtIso },
       tr ++ [Event.submitAddKey (resolvedKeyGateway env args) 1 pub 1
                (abiEncodeSignedKeyRequestMetadata fid (aOf ck) o.signature
                  (o.nowEpoch + 3600)),
              Event.confirm,
              Event.write sp
                { payload with appSignerAddedAt := some o.appSignerAddedAtIso },
              Event.reportDone fid]⟩ := by
  unfold stepTwo
  rw [hdec]
  simp [hns, hkg, hv, hlen]

/-- The wrong-chain branch of `registerBody`, as one equation. -/
theorem registerBody_wrongChain {env : Env} {aOf : String → Nat} {args : Args}
    {chain : Chain} {o : Oracle} {sp : String} {p0 : Secrets} {fs0 : FS}
    (h10 : chain.chainId ≠ 10) :
    registerBody env aOf args chain o sp p0 fs0 =
      ⟨Except.error (CliError.wrongChain chain.chainId),
       if genSignerFlag args p0 then
         FS.set fs0 sp (signerAugmented args o.signer p0) else fs0,
       if genSignerFlag args p0 then
         [Event.write sp (signerAugmented args o.signer p0)] else []⟩ := by
  unfold registerBody
  simp [h10]

/-- The insufficient-funds branch of `registerBody`, as one equation. -/
theorem registerBody_insufficientFunds {env : Env} {aOf : String → Nat}
    {args : Args} {chain : Chain} {o : Oracle} {sp : String} {p0 : Secrets}
    {fs0 : FS} (h10 : chain.chainId = 10) (hid : chain.idOf0 = 0)
    (hbal : chain.balance < chain.price) :
    registerBody env aOf args chain o sp p0 fs0 =
      ⟨Except.error (CliError.insufficientFunds chain.price),
       if genSignerFlag args p0 then
         FS.set fs0 sp (signerAugmented args o.signer p0) else fs0,
       if genSignerFlag args p0 then
         [Event.write sp (signerAugmented args o.signer p0)] else []⟩ := by
  unfold registerBody
  simp [h10, hid, hbal]

/-- The registering branch of `registerBody` (identifier absent, funds
sufficient, post-transaction read non-zero), as one equation down to the
`stepTwo` call. -/
theorem registerBody_registering {env : Env} {aOf : String → Nat}
    {args : Args} {chain : Chain} {o : Oracle} {sp : String} {p0 : Secrets}
    {fs0 : FS} (h10 : chain.chainId = 10) (hid : chain.idOf0 = 0)
    (hbal : ¬chain.balance < chain.price)
    (hafter : chain.idOfAfterRegister ≠ 0) :
    registerBody env aOf args chain o sp p0 fs0 =
      stepTwo env aOf args chain o sp p0.custodyPrivateKey
        chain.idOfAfterRegister
        { signerAugmented args o.signer p0 with
          fid := some (toString chain.idOfAfterRegister),
          fidRegisteredAt := some o.fidRegisteredAtIso }
        (FS.set
          (if genSignerFlag args p0 then
            FS.set fs0 sp (signerAugmented args o.signer p0) else fs0)
          sp
          { signerAugmented args o.signer p0 with
            fid := some (toString chain.idOfAfterRegister),
            fidRegisteredAt := some o.fidRegisteredAtIso })
        ((if genSignerFlag args p0 then
            [Event.write sp (signerAugmented args o.signer p0)] else []) ++
          [Event.submitRegister (resolvedIdGateway env args)
             (aOf p0.recoveryPrivateKey) chain.price,
           Event.confirm,
           Event.write sp
             { signerAugmented args o.signer p0 with
               fid := some (toString chain.idOfAfterRegister),
               fidRegisteredAt := some o.fidRegisteredAtIso },
           Event.reportStepOne chain.idOfAfterRegister]) := by
  unfold registerBody
  simp [h10, hid, hbal, hafter]

/-- The already-registered branch of `registerBody`, as one equation down to
the `stepTwo` call. -/
theorem registerBody_alreadyRegistered {env : Env} {aOf : String → Nat}
    {args : Args} {chain : Chain} {o : Oracle} {sp : String} {p0 : Secrets}
    {fs0 : FS} (h10 : chain.chainId = 10) (hid : chain.idOf0 ≠ 0) :
    registerBody env aOf args chain o sp p0 fs0 =
      stepTwo env aOf args chain o sp p0.custodyPrivateKey chain.idOf0
        (signerAugmented args o.signer p0)
        (if genSignerFlag args p0 then
          FS.set fs0 sp (signerAugmented args o.signer p0) else fs0)
        ((if genSignerFlag args p0 then
            [Event.write sp (signerAugmented args o.signer p0)] else []) ++
          [Event.reportStepOne chain.idOf0]) := by
  unfold registerBody
  simp [h10, hid]

/-- The registration-inconsistency branch of `registerBody` (transaction
confirmed but the identifier read back is still zero), as one equation. -/
theorem registerBody_inconsistency {env : Env} {aOf : String → Nat}
    {args : Args} {chain : Chain} {o : Oracle} {sp : String} {p0 : Secrets}
    {fs0 : FS} (h10 : chain.chainId = 10) (hid : chain.idOf0 = 0)
    (hbal : ¬chain.balance < chain.price)
    (hafter : chain.idOfAfterRegister = 0) :
    registerBody env aOf args chain o sp p0 fs0 =
      ⟨Except.error CliError.registrationInconsistency,
       if genSignerFlag args p0 then
         FS.set fs0 sp (signerAugmented args o.signer p0) else fs0,
       (if genSignerFlag args p0 then
          [Event.write sp (signerAugmented args o.signer p0)] else []) ++
         [Event.submitRegister (resolvedIdGateway env args)
            (aOf p0.recoveryPrivateKey) chain.price,
          Event.confirm]⟩ := by
  unfold registerBody
  simp [h10, hid, hbal, hafter]

theorem registerTxCount_append (a b : List Event) :
    registerTxCount (a ++ b) = registerTxCount a + registerTxCount b := by
  simp [registerTxCount, List.filter_append]

theorem txCount_append (a b : List Event) :
    txCount (a ++ b) = txCount a + txCount b := by
  simp [txCount, List.filter_append]

/-! Claim theorems. -/

/-- C5: for every path at which a file already exists, running the
secrets-file create operation (`init`) without `--force` fails with
AlreadyExists, and the filesystem — in particular the existing file — is
completely unchanged (no temporary file replaces it, no partial write). -/
theorem c5_init_existing_file_untouched {homedir : String} {io : InitOracle}
    {args : Args} {fs0 : FS} {name : String} {c : Secrets}
    (hname : resolveName args.name = Except.ok name)
    (hforce : args.force = false)
    (hex : FS.lookup fs0 (namedSecretsPath homedir name) = some c) :
    initRun homedir io args fs0 =
      ⟨Except.error (CliError.alreadyExists (namedSecretsPath homedir name)),
       fs0, []⟩ ∧
    ∀ p, FS.lookup (initRun homedir io args fs0).fs p = FS.lookup fs0 p := by
  have hrun : initRun homedir io args fs0 =
      ⟨Except.error (CliError.alreadyExists (namedSecretsPath homedir name)),
       fs0, []⟩ := by
    unfold initRun
    rw [hname]
    dsimp only
    unfold writeSecretsFile
    simp [hex, hforce]
  exact ⟨hrun, fun p => by rw [hrun]⟩

/-- C9 (as amended): when a non-empty `--secrets` path is supplied (an
empty-string value is falsy in the source and falls through to the
name-derived branch), `resolveSecretsPath` returns the resolved form of
that argument, for every value of `--name` (the name is never consulted);
whenever `--secrets` is absent or empty, the path is derived from the name
under the per-user configuration directory. -/
theorem c9_explicit_secrets_path {homedir cwd : String} {args : Args}
    {s : String} (hs : args.secrets = some s) (hne : s ≠ "") :
    resolveSecretsPath homedir cwd args = Except.ok (pathResolve cwd s) ∧
    (∀ nm : Option String,
      resolveSecretsPath homedir cwd { args with name := nm } =
        Except.ok (pathResolve cwd s)) ∧
    (∀ (args2 : Args) (nm2 : String), truthyS args2.secrets = false →
      resolveName args2.name = Except.ok nm2 →
      resolveSecretsPath homedir cwd args2 =
        Except.ok (namedSecretsPath homedir nm2)) := by
  refine ⟨?_, ?_, ?_⟩
  · unfold resolveSecretsPath
    rw [hs]
    simp [hne]
  · intro nm
    unfold resolveSecretsPath
    rw [show ({ args with name := nm } : Args).secrets = some s from hs]
    simp [hne]
  · intro args2 nm2 h2 hn2
    unfold resolveSecretsPath resolveNamedPath
    cases h2s : args2.secrets with
    | none =>
      rw [hn2]
    | some s2 =>
      rw [h2s] at h2
      simp only [truthyS, decide_eq_false_iff_not, not_not] at h2
      rw [hn2]
      simp [h2]

/-- C9 counterexample: with `--secrets ""` the source takes the
name-derived branch: the result is the name-derived path (the name is
consulted — different names give different paths), not the resolved form
of the empty argument, and a whitespace name even fails with Missing-name. -/
theorem c9_counterexample :
    resolveSecretsPath "/home/u" "/cwd"
        { name := some "alice", secrets := some "" } =
      Except.ok (namedSecretsPath "/home/u" "alice") ∧
    resolveSecretsPath "/home/u" "/cwd"
        { name := some "alice", secrets := some "" } ≠
      Except.ok (pathResolve "/cwd" "") ∧
    resolveSecretsPath "/home/u" "/cwd"
        { name := some "bob", secrets := some "" } ≠
      resolveSecretsPath "/home/u" "/cwd"
        { name := some "alice", secrets := some "" } ∧
    resolveSecretsPath "/home/u" "/cwd"
        { name := some " ", secrets := some "" } =
      Except.error CliError.missingName := by
  refine ⟨?_, ?_, ?_, ?_⟩ <;> decide

/-- C10 (as amended): a whitespace-only `--name` makes `init`, and `register`
without `--secrets`, fail with the Missing-name error before touching the
filesystem; an omitted or empty-string `--name` resolves to the default
identity name JohnTitor; with an explicit `--secrets`, `register` does not
consult the name at all. -/
theorem c10_whitespace_name {homedir cwd : String} {env : Env}
    {aOf : String → Nat} {o : Oracle} {io : InitOracle} {fs0 : FS}
    {chain : Chain} {args : Args} {w : String}
    (hw : args.name = some w) (hw1 : w ≠ "") (hw2 : jsTrim w = "") :
    initRun homedir io args fs0 =
      ⟨Except.error CliError.missingName, fs0, []⟩ ∧
    (args.secrets = none →
      registerRun homedir cwd env aOf args fs0 chain o =
        ⟨Except.error CliError.missingName, fs0, []⟩) ∧
    resolveName none = Except.ok "JohnTitor" ∧
    resolveName (some "") = Except.ok "JohnTitor" := by
  have hrn : resolveName args.name = Except.error CliError.missingName := by
    unfold resolveName jsOrS
    rw [hw]
    simp [hw1, hw2]
  refine ⟨?_, ?_, rfl, rfl⟩
  · unfold initRun
    rw [hrn]
  · intro hsec
    unfold registerRun resolveSecretsPath resolveNamedPath
    rw [hsec, hrn]

/-- C10 counterexample: with an explicit `--secrets` path, a whitespace-only
`--name` does not make `register` fail with the Missing-name error (here it
proceeds to the secrets-file lookup and fails with NotFound instead). -/
theorem c10_counterexample :
    (registerRun "/home/u" "/cwd" {} sampleAddressOf
        { name := some " ", secrets := some "/tmp/x.json" } []
        zeroBalanceChain sampleOracle).res =
      Except.error (CliError.secretsNotFound "/tmp/x.json") ∧
    (registerRun "/home/u" "/cwd" {} sampleAddressOf
        { name := some " ", secrets := some "/tmp/x.json" } []
        zeroBalanceChain sampleOracle).res ≠
      Except.error CliError.missingName := by
  constructor
  · decide
  · decide

/-- C6: when the identifier is absent on chain and the custody balance is
below the quoted price, `register` fails with InsufficientFunds, submits no
transaction of any kind, and the error message states the required amount
(the formatted price). -/
theorem c6_insufficient_funds {homedir cwd : String} {env : Env}
    {aOf : String → Nat} {args : Args} {fs0 : FS} {chain : Chain}
    {o : Oracle} {sp : String} {p0 : Secrets}
    (hres : resolveSecretsPath homedir cwd args = Except.ok sp)
    (hlk : FS.lookup fs0 sp = some p0)
    (hass : assertFarcasterKeys p0 = Except.ok ())
    (h10 : chain.chainId = 10) (hid : chain.idOf0 = 0)
    (hbal : chain.balance < chain.price) :
    (registerRun homedir cwd env aOf args fs0 chain o).res =
      Except.error (CliError.insufficientFunds chain.price) ∧
    txCount (registerRun homedir cwd env aOf args fs0 chain o).trace = 0 ∧
    errorMessage (CliError.insufficientFunds chain.price) =
      "Insufficient ETH for registration. Need at least " ++
        formatEther chain.price ++
        " ETH on Optimism to rent 1 storage unit." := by
  rw [registerRun_eq_body hres hlk hass,
    registerBody_insufficientFunds h10 hid hbal]
  refine ⟨rfl, ?_, rfl⟩
  by_cases hg : genSignerFlag args p0 <;>
    simp [hg, txCount, isRegisterTx, isAddKeyTx]

/-- C1 (as amended): on a fresh identity with zero identifier on chain and
balance below the price, `register` fails with InsufficientFunds, submits no
transaction, and adds no identifier field and no signer-addition timestamp
to the secrets file; the init-written fields are carried through unchanged.
(The signer key material itself has already been generated and persisted
before the balance check — that write is the one deviation from the claim
as stated.) -/
theorem c1_insufficient_funds_frame {homedir cwd : String} {env : Env}
    {aOf : String → Nat} {args : Args} {fs0 : FS} {chain : Chain}
    {o : Oracle} {sp : String} {p0 : Secrets}
    (hres : resolveSecretsPath homedir cwd args = Except.ok sp)
    (hlk : FS.lookup fs0 sp = some p0)
    (hass : assertFarcasterKeys p0 = Except.ok ())
    (h10 : chain.chainId = 10) (hid : chain.idOf0 = 0)
    (hbal : chain.balance < chain.price)
    (hfid : p0.fid = none) (hfreg : p0.fidRegisteredAt = none)
    (hadd : p0.appSignerAddedAt = none) :
    (registerRun homedir cwd env aOf args fs0 chain o).res =
      Except.error (CliError.insufficientFunds chain.price) ∧
    txCount (registerRun homedir cwd env aOf args fs0 chain o).trace = 0 ∧
    ∃ p1, FS.lookup (registerRun homedir cwd env aOf args fs0 chain o).fs sp
        = some p1 ∧
      p1.fid = none ∧ p1.fidRegisteredAt = none ∧
      p1.appSignerAddedAt = none ∧
      initWrittenFields p1 = initWrittenFields p0 := by
  rw [registerRun_eq_body hres hlk hass,
    registerBody_insufficientFunds h10 hid hbal]
  refine ⟨rfl, ?_, ?_⟩
  · by_cases hg : genSignerFlag args p0 <;>
      simp [hg, txCount, isRegisterTx, isAddKeyTx]
  · by_cases hg : genSignerFlag args p0
    · refine ⟨signerAugmented args o.signer p0, ?_, ?_, ?_, ?_, ?_⟩
      · simp [hg, lookup_set_self]
      · rw [signerAugmented_fid, hfid]
      · rw [signerAugmented_fidRegisteredAt, hfreg]
      · rw [signerAugmented_addedAt, hadd]
      · exact signerAugmented_initFields args o.signer p0
    · exact ⟨p0, by simp [hg, hlk], hfid, hfreg, hadd, rfl⟩

/-- C1 counterexample: in the spec's scenario A (fresh identity, zero
balance), `register` fails with InsufficientFunds, yet the persisted secrets
file now carries signer sub-record fields that `init` did not write. -/
theorem c1_counterexample :
    (registerRun "/home/u" "/cwd" {} sampleAddressOf aliceArgs aliceFS
        zeroBalanceChain sampleOracle).res =
      Except.error (CliError.insufficientFunds 5) ∧
    Option.map Secrets.appSignerKeyType
      (FS.lookup (registerRun "/home/u" "/cwd" {} sampleAddressOf aliceArgs
        aliceFS zeroBalanceChain sampleOracle).fs alicePath) =
      some (some "ed25519") ∧
    freshSecrets.appSignerKeyType = none := by
  refine ⟨?_, ?_, rfl⟩
  · decide
  · decide

/-- C2 (as amended): on a chain whose reported identifier differs from 10,
`register` fails with WrongChain and issues no transaction of any kind; the
only filesystem effect that can precede the failure is the single
signer-persist write (which carries the init-written fields and the
identifier field through unchanged). -/
theorem c2_wrong_chain {homedir cwd : String} {env : Env}
    {aOf : String → Nat} {args : Args} {fs0 : FS} {chain : Chain}
    {o : Oracle} {sp : String} {p0 : Secrets}
    (hres : resolveSecretsPath homedir cwd args = Except.ok sp)
    (hlk : FS.lookup fs0 sp = some p0)
    (hass : assertFarcasterKeys p0 = Except.ok ())
    (h10 : chain.chainId ≠ 10) :
    (registerRun homedir cwd env aOf args fs0 chain o).res =
      Except.error (CliError.wrongChain chain.chainId) ∧
    txCount (registerRun homedir cwd env aOf args fs0 chain o).trace = 0 ∧
    ∀ q p, Event.write q p ∈
        (registerRun homedir cwd env aOf args fs0 chain o).trace →
      q = sp ∧ initWrittenFields p = initWrittenFields p0 ∧
        p.fid = p0.fid := by
  rw [registerRun_eq_body hres hlk hass, registerBody_wrongChain h10]
  refine ⟨rfl, ?_, ?_⟩
  · by_cases hg : genSignerFlag args p0 <;>
      simp [hg, txCount, isRegisterTx, isAddKeyTx]
  · intro q p hm
    rcases Bool.eq_false_or_eq_true (genSignerFlag args p0) with hg | hg
    · rw [hg] at hm
      simp at hm
      obtain ⟨hq, hp⟩ := hm
      subst hq
      subst hp
      exact ⟨rfl, signerAugmented_initFields args o.signer p0,
        signerAugmented_fid args o.signer p0⟩
    · rw [hg] at hm
      simp at hm

theorem stepTwo_registerTxCount (env : Env) (aOf : String → Nat) (args : Args)
    (chain : Chain) (o : Oracle) (sp ck : String) (fid : Nat)
    (payload : Secrets) (fs : FS) (tr : List Event) :
    registerTxCount
        (stepTwo env aOf args chain o sp ck fid payload fs tr).trace =
      registerTxCount tr := by
  obtain ⟨extra, htr, hfil, -, -⟩ :=
    stepTwo_trace_shape env aOf args chain o sp ck fid payload fs tr
  rw [htr, registerTxCount_append]
  simp [registerTxCount, hfil]

theorem stepTwo_write_mem (env : Env) (aOf : String → Nat) (args : Args)
    (chain : Chain) (o : Oracle) (sp ck : String) (fid : Nat)
    (payload : Secrets) (fs : FS) (tr : List Event) {q : String} {p : Secrets}
    (hm : Event.write q p ∈
      (stepTwo env aOf args chain o sp ck fid payload fs tr).trace) :
    Event.write q p ∈ tr ∨
      (q = sp ∧
        p = { payload with appSignerAddedAt := some o.appSignerAddedAtIso }) := by
  obtain ⟨extra, htr, -, hw, -⟩ :=
    stepTwo_trace_shape env aOf args chain o sp ck fid payload fs tr
  rw [htr, List.mem_append] at hm
  rcases hm with h | h
  · exact Or.inl h
  · exact Or.inr (hw q p h)

theorem stepTwo_addKey_mem (env : Env) (aOf : String → Nat) (args : Args)
    (chain : Chain) (o : Oracle) (sp ck : String) (fid : Nat)
    (payload : Secrets) (fs : FS) (tr : List Event) {g : String}
    {kt mt : Nat} {key md : List Nat}
    (hm : Event.submitAddKey g kt key mt md ∈
      (stepTwo env aOf args chain o sp ck fid payload fs tr).trace) :
    Event.submitAddKey g kt key mt md ∈ tr ∨
      md = abiEncodeSignedKeyRequestMetadata fid (aOf ck) o.signature
        (o.nowEpoch + 3600) := by
  obtain ⟨extra, htr, -, -, hk⟩ :=
    stepTwo_trace_shape env aOf args chain o sp ck fid payload fs tr
  rw [htr, List.mem_append] at hm
  rcases hm with h | h
  · exact Or.inl h
  · exact Or.inr (hk g kt key mt md h)

/-- Membership in the conditional signer-persist singleton trace. -/
theorem genWrite_mem {args : Args} {s : SignerRecord} {p0 p : Secrets}
    {sp q : String}
    (hm : Event.write q p ∈
      (if genSignerFlag args p0 then
        [Event.write sp (signerAugmented args s p0)] else [])) :
    q = sp ∧ p = signerAugmented args s p0 := by
  rcases Bool.eq_false_or_eq_true (genSignerFlag args p0) with hg | hg
  · rw [hg] at hm
    simpa using hm
  · rw [hg] at hm
    simp at hm

/-- Every secrets-file write in a `registerBody` trace targets the secrets
path and carries the init-written fields of the loaded payload unchanged. -/
theorem registerBody_write_mem {env : Env} {aOf : String → Nat} {args : Args}
    {chain : Chain} {o : Oracle} {sp : String} {p0 : Secrets} {fs0 : FS}
    {q : String} {p : Secrets}
    (hm : Event.write q p ∈
      (registerBody env aOf args chain o sp p0 fs0).trace) :
    q = sp ∧ initWrittenFields p = initWrittenFields p0 := by
  by_cases h10 : chain.chainId = 10
  · by_cases hid : chain.idOf0 = 0
    · by_cases hbal : chain.balance < chain.price
      · rw [registerBody_insufficientFunds h10 hid hbal] at hm
        obtain ⟨hq, hp⟩ := genWrite_mem hm
        exact ⟨hq, hp ▸ signerAugmented_initFields args o.signer p0⟩
      · by_cases hafter : chain.idOfAfterRegister = 0
        · rw [registerBody_inconsistency h10 hid hbal hafter] at hm
          dsimp only at hm
          rw [List.mem_append] at hm
          rcases hm with h | h
          · obtain ⟨hq, hp⟩ := genWrite_mem h
            exact ⟨hq, hp ▸ signerAugmented_initFields args o.signer p0⟩
          · simp at h
        · rw [registerBody_registering h10 hid hbal hafter] at hm
          rcases stepTwo_write_mem _ _ _ _ _ _ _ _ _ _ _ hm with h | ⟨hq, hp⟩
          · rw [List.mem_append] at h
            rcases h with h | h
            · obtain ⟨hq, hp⟩ := genWrite_mem h
              exact ⟨hq, hp ▸ signerAugmented_initFields args o.signer p0⟩
            · simp only [List.mem_cons, List.not_mem_nil, or_false] at h
              rcases h with h | h | h | h
              · injection h
              · injection h
              · injection h with hq hp
                subst hq
                subst hp
                exact ⟨rfl, signerAugmented_initFields args o.signer p0⟩
              · injection h
          · refine ⟨hq, ?_⟩
            rw [hp]
            exact signerAugmented_initFields args o.signer p0
    · rw [registerBody_alreadyRegistered h10 hid] at hm
      rcases stepTwo_write_mem _ _ _ _ _ _ _ _ _ _ _ hm with h | ⟨hq, hp⟩
      · rw [List.mem_append] at h
        rcases h with h | h
        · obtain ⟨hq, hp⟩ := genWrite_mem h
          exact ⟨hq, hp ▸ signerAugmented_initFields args o.signer p0⟩
        · simp at h
      · refine ⟨hq, ?_⟩
        rw [hp]
        exact signerAugmented_initFields args o.signer p0
  · rw [registerBody_wrongChain (by exact h10)] at hm
    obtain ⟨hq, hp⟩ := genWrite_mem hm
    exact ⟨hq, hp ▸ signerAugmented_initFields args o.signer p0⟩

/-- Every add-key submission in a `registerBody` trace carries the
nested-tuple metadata built from the established identifier, the custody
address, the signature, and the one-hour deadline. -/
theorem registerBody_addKey_mem {env : Env} {aOf : String → Nat} {args : Args}
    {chain : Chain} {o : Oracle} {sp : String} {p0 : Secrets} {fs0 : FS}
    {g : String} {kt mt : Nat} {key md : List Nat}
    (hm : Event.submitAddKey g kt key mt md ∈
      (registerBody env aOf args chain o sp p0 fs0).trace) :
    ∃ fid, (fid = chain.idOf0 ∨ fid = chain.idOfAfterRegister) ∧
      md = abiEncodeSignedKeyRequestMetadata fid (aOf p0.custodyPrivateKey)
        o.signature (o.nowEpoch + 3600) := by
  have hnot1 : ∀ (s : SignerRecord), Event.submitAddKey g kt key mt md ∉
      (if genSignerFlag args p0 then
        [Event.write sp (signerAugmented args s p0)] else []) := by
    intro s hmem
    rcases Bool.eq_false_or_eq_true (genSignerFlag args p0) with hg | hg <;>
      rw [hg] at hmem <;> simp at hmem
  by_cases h10 : chain.chainId = 10
  · by_cases hid : chain.idOf0 = 0
    · by_cases hbal : chain.balance < chain.price
      · rw [registerBody_insufficientFunds h10 hid hbal] at hm
        exact absurd hm (hnot1 o.signer)
      · by_cases hafter : chain.idOfAfterRegister = 0
        · rw [registerBody_inconsistency h10 hid hbal hafter] at hm
          dsimp only at hm
          rw [List.mem_append] at hm
          rcases hm with h | h
          · exact absurd h (hnot1 o.signer)
          · simp at h
        · rw [registerBody_registering h10 hid hbal hafter] at hm
          rcases stepTwo_addKey_mem _ _ _ _ _ _ _ _ _ _ _ hm with h | h
          · rw [List.mem_append] at h
            rcases h with h | h
            · exact absurd h (hnot1 o.signer)
            · simp at h
          · exact ⟨chain.idOfAfterRegister, Or.inr rfl, h⟩
    · rw [registerBody_alreadyRegistered h10 hid] at hm
      rcases stepTwo_addKey_mem _ _ _ _ _ _ _ _ _ _ _ hm with h | h
      · rw [List.mem_append] at h
        rcases h with h | h
        · exact absurd h (hnot1 o.signer)
        · simp at h
      · exact ⟨chain.idOf0, Or.inl rfl, h⟩
  · rw [registerBody_wrongChain (by exact h10)] at hm
    exact absurd hm (hnot1 o.signer)

/-- C3 (as amended): when the on-chain identifier lookup returns 0 and the
balance covers the price, `register` issues exactly one register
transaction (whatever happens afterwards); when the lookup returns 0 but
the balance is short, it issues zero register transactions (failing with
InsufficientFunds instead); when the lookup is non-zero, it issues zero
register transactions and the identifier field persisted in the secrets
file is carried through unchanged. -/
theorem c3_guarded_registration {homedir cwd : String} {env : Env}
    {aOf : String → Nat} {args : Args} {fs0 : FS} {chain : Chain}
    {o : Oracle} {sp : String} {p0 : Secrets}
    (hres : resolveSecretsPath homedir cwd args = Except.ok sp)
    (hlk : FS.lookup fs0 sp = some p0)
    (hass : assertFarcasterKeys p0 = Except.ok ())
    (h10 : chain.chainId = 10) :
    (chain.idOf0 = 0 → ¬chain.balance < chain.price →
      registerTxCount (registerRun homedir cwd env aOf args fs0 chain o).trace
        = 1) ∧
    (chain.idOf0 = 0 → chain.balance < chain.price →
      registerTxCount (registerRun homedir cwd env aOf args fs0 chain o).trace
        = 0) ∧
    (chain.idOf0 ≠ 0 →
      registerTxCount (registerRun homedir cwd env aOf args fs0 chain o).trace
          = 0 ∧
      ∀ q, FS.lookup (registerRun homedir cwd env aOf args fs0 chain o).fs sp
          = some q → q.fid = p0.fid) := by
  rw [registerRun_eq_body hres hlk hass]
  refine ⟨?_, ?_, ?_⟩
  · intro hid hbal
    by_cases hafter : chain.idOfAfterRegister = 0
    · rw [registerBody_inconsistency h10 hid hbal hafter]
      dsimp only
      rw [registerTxCount_append]
      rcases Bool.eq_false_or_eq_true (genSignerFlag args p0) with hg | hg <;>
        rw [hg] <;> simp [registerTxCount, isRegisterTx]
    · rw [registerBody_registering h10 hid hbal hafter,
        stepTwo_registerTxCount, registerTxCount_append]
      rcases Bool.eq_false_or_eq_true (genSignerFlag args p0) with hg | hg <;>
        rw [hg] <;> simp [registerTxCount, isRegisterTx]
  · intro hid hbal
    rw [registerBody_insufficientFunds h10 hid hbal]
    dsimp only
    rcases Bool.eq_false_or_eq_true (genSignerFlag args p0) with hg | hg <;>
      rw [hg] <;> simp [registerTxCount, isRegisterTx]
  · intro hid
    rw [registerBody_alreadyRegistered h10 hid]
    constructor
    · rw [stepTwo_registerTxCount, registerTxCount_append]
      rcases Bool.eq_false_or_eq_true (genSignerFlag args p0) with hg | hg <;>
        rw [hg] <;> simp [registerTxCount, isRegisterTx]
    · intro q hq
      rcases stepTwo_fs_shape env aOf args chain o sp p0.custodyPrivateKey
          chain.idOf0 (signerAugmented args o.signer p0)
          (if genSignerFlag args p0 then
            FS.set fs0 sp (signerAugmented args o.signer p0) else fs0)
          ((if genSignerFlag args p0 then
              [Event.write sp (signerAugmented args o.signer p0)] else []) ++
            [Event.reportStepOne chain.idOf0]) with h | h
      · rw [h] at hq
        rcases Bool.eq_false_or_eq_true (genSignerFlag args p0) with hg | hg <;>
          rw [hg] at hq
        · rw [if_pos rfl, lookup_set_self] at hq
          obtain rfl := Option.some.inj hq
          exact (signerAugmented_fid args o.signer p0).symm ▸ rfl
        · rw [if_neg (by simp), hlk] at hq
          obtain rfl := Option.some.inj hq
          rfl
      · rw [h, lookup_set_self] at hq
        obtain rfl := Option.some.inj hq
        exact signerAugmented_fid args o.signer p0


/-- C3 counterexample: with the identifier absent on chain (lookup 0) but a
zero balance, `register` issues zero register transactions, not exactly
one. -/
theorem c3_counterexample :
    zeroBalanceChain.idOf0 = 0 ∧
    registerTxCount (registerRun "/home/u" "/cwd" {} sampleAddressOf
      aliceArgs aliceFS zeroBalanceChain sampleOracle).trace = 0 := by
  constructor
  · rfl
  · decide

/-- C8: every secrets-file write performed anywhere in a `register` run
targets the resolved secrets path, whose previously stored record it found,
and carries the init-written fields (kind, name, creation timestamp,
custody and recovery addresses and private keys) through unchanged — the
rewrite only adds or updates the identifier and signer fields. -/
theorem c8_register_writes_preserve_init_fields {homedir cwd : String}
    {env : Env} {aOf : String → Nat} {args : Args} {fs0 : FS} {chain : Chain}
    {o : Oracle} {q : String} {p : Secrets}
    (hm : Event.write q p ∈
      (registerRun homedir cwd env aOf args fs0 chain o).trace) :
    ∃ p0, FS.lookup fs0 q = some p0 ∧
      initWrittenFields p = initWrittenFields p0 := by
  unfold registerRun at hm
  cases hE : resolveSecretsPath homedir cwd args with
  | error e =>
    rw [hE] at hm
    simp at hm
  | ok sp =>
    rw [hE] at hm
    dsimp only at hm
    cases hL : FS.lookup fs0 sp with
    | none =>
      rw [hL] at hm
      simp at hm
    | some p0 =>
      rw [hL] at hm
      dsimp only at hm
      cases hA : assertFarcasterKeys p0 with
      | error e =>
        rw [hA] at hm
        simp at hm
      | ok u =>
        rw [hA] at hm
        dsimp only at hm
        obtain ⟨hq, hfields⟩ := registerBody_write_mem hm
        subst hq
        exact ⟨p0, hL, hfields⟩

/-- C4: the metadata of every add-key transaction a `register` run submits
is the ABI encoding of the single nested tuple (identifier, signer address,
signature, deadline); the layout the validator decodes recovers exactly
those fields from it, and it is never the encoding of the same four values
as independent top-level values. -/
theorem c4_metadata_single_tuple {homedir cwd : String} {env : Env}
    {aOf : String → Nat} {args : Args} {fs0 : FS} {chain : Chain}
    {o : Oracle} {g : String} {kt mt : Nat} {key md : List Nat}
    (hb1 : chain.idOf0 < 256 ^ 32) (hb2 : chain.idOfAfterRegister < 256 ^ 32)
    (hb3 : ∀ s, aOf s < 256 ^ 32) (hb4 : o.signature.length < 256 ^ 32)
    (hb5 : o.nowEpoch + 3600 < 256 ^ 32)
    (hm : Event.submitAddKey g kt key mt md ∈
      (registerRun homedir cwd env aOf args fs0 chain o).trace) :
    ∃ fid addr,
      md = abiEncodeSignedKeyRequestMetadata fid addr o.signature
        (o.nowEpoch + 3600) ∧
      validatorDecodeMetadata md =
        some (fid, addr, o.signature, o.nowEpoch + 3600) ∧
      md ≠ abiEncodeFourValues fid addr o.signature (o.nowEpoch + 3600) := by
  unfold registerRun at hm
  cases hE : resolveSecretsPath homedir cwd args with
  | error e =>
    rw [hE] at hm
    simp at hm
  | ok sp =>
    rw [hE] at hm
    dsimp only at hm
    cases hL : FS.lookup fs0 sp with
    | none =>
      rw [hL] at hm
      simp at hm
    | some p0 =>
      rw [hL] at hm
      dsimp only at hm
      cases hA : assertFarcasterKeys p0 with
      | error e =>
        rw [hA] at hm
        simp at hm
      | ok u =>
        rw [hA] at hm
        dsimp only at hm
        obtain ⟨fid, hfid, hmd⟩ := registerBody_addKey_mem hm
        have hfidlt : fid < 256 ^ 32 := by
          rcases hfid with h | h <;> rw [h]
          · exact hb1
          · exact hb2
        refine ⟨fid, aOf p0.custodyPrivateKey, hmd, ?_, ?_⟩
        · rw [hmd]
          exact validatorDecode_encode fid (aOf p0.custodyPrivateKey)
            (o.nowEpoch + 3600) o.signature hfidlt
            (hb3 p0.custodyPrivateKey) hb5 hb4
        · rw [hmd]
          exact encode_tuple_ne_four_values fid (aOf p0.custodyPrivateKey)
            o.signature (o.nowEpoch + 3600)

theorem persist_nil : persistBeforeSuccess [] = true := rfl

theorem persist_write_cons (sp : String) (p : Secrets) (rest : List Event) :
    persistBeforeSuccess (Event.write sp p :: rest) =
      persistBeforeSuccess rest := rfl

theorem persist_reportStepOne_cons (f : Nat) (rest : List Event) :
    persistBeforeSuccess (Event.reportStepOne f :: rest) =
      persistBeforeSuccess rest := rfl

theorem persist_reportSkip_cons (rest : List Event) :
    persistBeforeSuccess (Event.reportSkipSigner :: rest) =
      persistBeforeSuccess rest := rfl

theorem persist_register_pair (g : String) (r v : Nat) :
    persistBeforeSuccess [Event.submitRegister g r v, Event.confirm] =
      true := rfl

theorem persist_register_quad (g : String) (r v : Nat) (sp : String)
    (p : Secrets) (f : Nat) (rest : List Event) :
    persistBeforeSuccess (Event.submitRegister g r v :: Event.confirm ::
        Event.write sp p :: Event.reportStepOne f :: rest) =
      ((p.fid == some (toString f)) && p.fidRegisteredAt.isSome &&
        persistBeforeSuccess rest) := rfl

theorem persist_addKey_quad (g : String) (kt : Nat) (key : List Nat)
    (mt : Nat) (md : List Nat) (sp : String) (p : Secrets) (f : Nat)
    (rest : List Event) :
    persistBeforeSuccess (Event.submitAddKey g kt key mt md ::
        Event.confirm :: Event.write sp p :: Event.reportDone f :: rest) =
      (p.appSignerAddedAt.isSome && persistBeforeSuccess rest) := rfl

/-- Every `stepTwo` trace satisfies the persistence checker, provided the
incoming trace does so under any checker-true continuation. -/
theorem stepTwo_persist (env : Env) (aOf : String → Nat) (args : Args)
    (chain : Chain) (o : Oracle) (sp ck : String) (fid : Nat)
    (payload : Secrets) (fs : FS) (tr : List Event)
    (h : ∀ extra, persistBeforeSuccess extra = true →
      persistBeforeSuccess (tr ++ extra) = true) :
    persistBeforeSuccess
      (stepTwo env aOf args chain o sp ck fid payload fs tr).trace =
      true := by
  unfold stepTwo
  split_ifs with h1 h2 h3
  · exact h [Event.reportSkipSigner]
      (by rw [persist_reportSkip_cons]; exact persist_nil)
  · simpa using h [] persist_nil
  · simpa using h [] persist_nil
  · cases hb : base64urlToBytes ((payload.appSignerPublicKeyBase64url).getD "") with
    | error e =>
      dsimp only
      simpa using h [] persist_nil
    | ok pub =>
      dsimp only
      split_ifs with h4
      · simpa using h [] persist_nil
      · apply h
        rw [persist_addKey_quad]
        simp [persist_nil]

/-- C7: in every `register` run, the trace satisfies the
persistence-before-success checker: each confirmed register transaction is
either not followed by a step-one success report at all (the
inconsistency failure), or is followed immediately by the secrets-file
write persisting the new identifier (the reported fid and a registration
timestamp) and only then the step-one success report; each confirmed
add-key transaction is followed immediately by the secrets-file write
persisting the signer-addition timestamp and only then the final Done
report. -/
theorem c7_persist_before_success (homedir cwd : String) (env : Env)
    (aOf : String → Nat) (args : Args) (fs0 : FS) (chain : Chain)
    (o : Oracle) :
    persistBeforeSuccess
      (registerRun homedir cwd env aOf args fs0 chain o).trace = true := by
  unfold registerRun
  cases hE : resolveSecretsPath homedir cwd args with
  | error e => exact persist_nil
  | ok sp =>
    dsimp only
    cases hL : FS.lookup fs0 sp with
    | none => exact persist_nil
    | some p0 =>
      dsimp only
      cases hA : assertFarcasterKeys p0 with
      | error e => exact persist_nil
      | ok u =>
        dsimp only
        have hpre : ∀ extra, persistBeforeSuccess extra = true →
            persistBeforeSuccess
              ((if genSignerFlag args p0 then
                [Event.write sp (signerAugmented args o.signer p0)]
                else []) ++ extra) = true := by
          intro extra hx
          rcases Bool.eq_false_or_eq_true (genSignerFlag args p0) with hg | hg <;>
            rw [hg]
          · rw [if_pos rfl, List.cons_append, List.nil_append,
              persist_write_cons]
            exact hx
          · rw [if_neg (by simp), List.nil_append]
            exact hx
        by_cases h10 : chain.chainId = 10
        · by_cases hid : chain.idOf0 = 0
          · by_cases hbal : chain.balance < chain.price
            · rw [registerBody_insufficientFunds h10 hid hbal]
              dsimp only
              simpa using hpre [] persist_nil
            · by_cases hafter : chain.idOfAfterRegister = 0
              · rw [registerBody_inconsistency h10 hid hbal hafter]
                dsimp only
                apply hpre
                exact persist_register_pair _ _ _
              · rw [registerBody_registering h10 hid hbal hafter]
                apply stepTwo_persist
                intro extra hx
                rw [List.append_assoc]
                apply hpre
                simp only [List.cons_append, List.nil_append]
                rw [persist_register_quad]
                simp [hx]
          · rw [registerBody_alreadyRegistered h10 hid]
            apply stepTwo_persist
            intro extra hx
            rw [List.append_assoc]
            apply hpre
            simp only [List.cons_append, List.nil_append]
            rw [persist_reportStepOne_cons]
            exact hx
        · rw [registerBody_wrongChain h10]
          dsimp only
          simpa using hpre [] persist_nil

/-- C2 counterexample: connected to chain id 1 with a fresh identity,
`register` does fail with WrongChain, but a secrets-file write (the
generated signer) has already happened before the check — the failure is
not "before any secrets-file write". -/
theorem c2_counterexample :
    (registerRun "/home/u" "/cwd" {} sampleAddressOf aliceArgs aliceFS
        wrongChainNet sampleOracle).res =
      Except.error (CliError.wrongChain 1) ∧
    ((registerRun "/home/u" "/cwd" {} sampleAddressOf aliceArgs aliceFS
        wrongChainNet sampleOracle).trace.filter isWriteEvent).length = 1 ∧
    FS.lookup (registerRun "/home/u" "/cwd" {} sampleAddressOf aliceArgs
        aliceFS wrongChainNet sampleOracle).fs alicePath ≠
      FS.lookup aliceFS alicePath := by
  refine ⟨?_, ?_, ?_⟩ <;> decide

/-! Witnesses: each applies its claim theorem at concrete inputs. -/

theorem c5_witness :
    initRun "/home/u" sampleInitOracle aliceArgs aliceFS =
      ⟨Except.error (CliError.alreadyExists
        (namedSecretsPath "/home/u" "alice")), aliceFS, []⟩ ∧
    FS.lookup (initRun "/home/u" sampleInitOracle aliceArgs aliceFS).fs
        alicePath =
      FS.lookup aliceFS alicePath :=
  ⟨(@c5_init_existing_file_untouched "/home/u" sampleInitOracle aliceArgs
      aliceFS "alice" freshSecrets rfl rfl (by decide)).1,
   (@c5_init_existing_file_untouched "/home/u" sampleInitOracle aliceArgs
      aliceFS "alice" freshSecrets rfl rfl (by decide)).2 alicePath⟩

theorem c9_witness :
    resolveSecretsPath "/home/u" "/cwd" secretsArgs =
      Except.ok (pathResolve "/cwd" "x.json") ∧
    resolveSecretsPath "/home/u" "/cwd" { secretsArgs with name := some "bob" } =
      Except.ok (pathResolve "/cwd" "x.json") ∧
    resolveSecretsPath "/home/u" "/cwd" aliceArgs =
      Except.ok (namedSecretsPath "/home/u" "alice") :=
  ⟨(@c9_explicit_secrets_path "/home/u" "/cwd" secretsArgs "x.json" rfl
      (by decide)).1,
   (@c9_explicit_secrets_path "/home/u" "/cwd" secretsArgs "x.json" rfl
      (by decide)).2.1 (some "bob"),
   (@c9_explicit_secrets_path "/home/u" "/cwd" secretsArgs "x.json" rfl
      (by decide)).2.2 aliceArgs "alice" rfl rfl⟩

theorem c10_witness :
    initRun "/home/u" sampleInitOracle wsArgs [] =
      ⟨Except.error CliError.missingName, [], []⟩ ∧
    registerRun "/home/u" "/cwd" {} sampleAddressOf wsArgs []
        zeroBalanceChain sampleOracle =
      ⟨Except.error CliError.missingName, [], []⟩ ∧
    resolveName none = Except.ok "JohnTitor" ∧
    resolveName (some "") = Except.ok "JohnTitor" :=
  have h := @c10_whitespace_name "/home/u" "/cwd" {} sampleAddressOf
    sampleOracle sampleInitOracle [] zeroBalanceChain wsArgs " "
    rfl (by decide) (by decide)
  ⟨h.1, h.2.1 rfl, h.2.2.1, h.2.2.2⟩

theorem c6_witness :
    (registerRun "/home/u" "/cwd" {} sampleAddressOf aliceArgs aliceFS
        zeroBalanceChain sampleOracle).res =
      Except.error (CliError.insufficientFunds zeroBalanceChain.price) ∧
    txCount (registerRun "/home/u" "/cwd" {} sampleAddressOf aliceArgs
        aliceFS zeroBalanceChain sampleOracle).trace = 0 ∧
    errorMessage (CliError.insufficientFunds zeroBalanceChain.price) =
      "Insufficient ETH for registration. Need at least " ++
        formatEther zeroBalanceChain.price ++
        " ETH on Optimism to rent 1 storage unit." :=
  @c6_insufficient_funds "/home/u" "/cwd" {} sampleAddressOf aliceArgs
    aliceFS zeroBalanceChain sampleOracle alicePath freshSecrets
    (by decide) (by decide) rfl rfl rfl (by decide)

theorem c1_witness :
    (registerRun "/home/u" "/cwd" {} sampleAddressOf aliceArgs aliceFS
        zeroBalanceChain sampleOracle).res =
      Except.error (CliError.insufficientFunds zeroBalanceChain.price) ∧
    txCount (registerRun "/home/u" "/cwd" {} sampleAddressOf aliceArgs
        aliceFS zeroBalanceChain sampleOracle).trace = 0 ∧
    ∃ p1, FS.lookup (registerRun "/home/u" "/cwd" {} sampleAddressOf
        aliceArgs aliceFS zeroBalanceChain sampleOracle).fs alicePath =
        some p1 ∧
      p1.fid = none ∧ p1.fidRegisteredAt = none ∧
      p1.appSignerAddedAt = none ∧
      initWrittenFields p1 = initWrittenFields freshSecrets :=
  @c1_insufficient_funds_frame "/home/u" "/cwd" {} sampleAddressOf aliceArgs
    aliceFS zeroBalanceChain sampleOracle alicePath freshSecrets
    (by decide) (by decide) rfl rfl rfl (by decide) rfl rfl rfl

theorem c2_witness :
    (registerRun "/home/u" "/cwd" {} sampleAddressOf aliceArgs aliceFS
        wrongChainNet sampleOracle).res =
      Except.error (CliError.wrongChain wrongChainNet.chainId) ∧
    txCount (registerRun "/home/u" "/cwd" {} sampleAddressOf aliceArgs
        aliceFS wrongChainNet sampleOracle).trace = 0 ∧
    (alicePath = alicePath ∧
      initWrittenFields (signerAugmented aliceArgs sampleOracle.signer
        freshSecrets) = initWrittenFields freshSecrets ∧
      (signerAugmented aliceArgs sampleOracle.signer freshSecrets).fid =
        freshSecrets.fid) :=
  have h := @c2_wrong_chain "/home/u" "/cwd" {} sampleAddressOf aliceArgs
    aliceFS wrongChainNet sampleOracle alicePath freshSecrets
    (by decide) (by decide) rfl (by decide)
  ⟨h.1, h.2.1,
   h.2.2 alicePath (signerAugmented aliceArgs sampleOracle.signer freshSecrets)
     (by decide)⟩

theorem c3_witness :
    registerTxCount (registerRun "/home/u" "/cwd" {} sampleAddressOf
      aliceArgs aliceFS fundedChain sampleOracle).trace = 1 ∧
    registerTxCount (registerRun "/home/u" "/cwd" {} sampleAddressOf
      aliceArgs registeredFS registeredChain sampleOracle).trace = 0 ∧
    ({ storedSignerSecrets with
        appSignerAddedAt := some "t3" } : Secrets).fid =
      storedSignerSecrets.fid :=
  have h1 := @c3_guarded_registration "/home/u" "/cwd" {} sampleAddressOf
    aliceArgs aliceFS fundedChain sampleOracle alicePath freshSecrets
    (by decide) (by decide) rfl rfl
  have h2 := @c3_guarded_registration "/home/u" "/cwd" {} sampleAddressOf
    aliceArgs registeredFS registeredChain sampleOracle alicePath
    storedSignerSecrets (by decide) (by decide) rfl rfl
  ⟨h1.1 rfl (by decide),
   (h2.2.2 (by decide)).1,
   (h2.2.2 (by decide)).2
     { storedSignerSecrets with appSignerAddedAt := some "t3" } (by decide)⟩

theorem c8_witness :
    ∃ p0, FS.lookup aliceFS alicePath = some p0 ∧
      initWrittenFields (signerAugmented aliceArgs sampleOracle.signer
        freshSecrets) = initWrittenFields p0 :=
  @c8_register_writes_preserve_init_fields "/home/u" "/cwd" {}
    sampleAddressOf aliceArgs aliceFS fundedChain sampleOracle alicePath
    (signerAugmented aliceArgs sampleOracle.signer freshSecrets) (by decide)

set_option maxRecDepth 100000 in
theorem c4_witness :
    ∃ fid addr,
      abiEncodeSignedKeyRequestMetadata 7 99 [1, 2, 3] 4600 =
        abiEncodeSignedKeyRequestMetadata fid addr sampleOracle.signature
          (sampleOracle.nowEpoch + 3600) ∧
      validatorDecodeMetadata
          (abiEncodeSignedKeyRequestMetadata 7 99 [1, 2, 3] 4600) =
        some (fid, addr, sampleOracle.signature,
          sampleOracle.nowEpoch + 3600) ∧
      abiEncodeSignedKeyRequestMetadata 7 99 [1, 2, 3] 4600 ≠
        abiEncodeFourValues fid addr sampleOracle.signature
          (sampleOracle.nowEpoch + 3600) :=
  @c4_metadata_single_tuple "/home/u" "/cwd" {} sampleAddressOf aliceArgs
    aliceFS fundedChain sampleOracle (resolvedKeyGateway {} aliceArgs) 1 1
    (List.replicate 32 0)
    (abiEncodeSignedKeyRequestMetadata 7 99 [1, 2, 3] 4600)
    (by decide) (by decide)
    (fun s => lt_pow32 (by norm_num [sampleAddressOf])) (by decide)
    (by decide) (by decide)

theorem c7_witness :
    persistBeforeSuccess (registerRun "/home/u" "/cwd" {} sampleAddressOf
      aliceArgs aliceFS fundedChain sampleOracle).trace = true :=
  c7_persist_before_success "/home/u" "/cwd" {} sampleAddressOf aliceArgs
    aliceFS fundedChain sampleOracle

end Maelstrom
